import Mathlib

/-!
Verification development for the `ags` multi-protocol request dispatcher.

This file gives a shallow embedding in Lean 4 of the parts of the Go
source relevant to the frozen claims: the structured error model
(`errors.go`), the dispatcher (`ags.go`: `ServeHTTP`, `Route`, groups,
middleware, `handleMethodNotAllowed`, `RespondJSON`), the debug
endpoint (`debug.go`), the gRPC/WebSocket protocol detectors, and the
request-ID middleware (`pkg/middleware/request_id.go`).

Conventions of the embedding:
- Go maps (`http.Header`, `h.routes`, metadata maps) are association
  lists with overwrite-on-set semantics (`mapSet` / `mapGet`).
- Effectful captures (`time.Now`, `runtime.Stack`) become explicit
  parameters of the embedded functions.
- The JSON encoder is modelled for strings that need no escaping,
  which covers every string the claims touch.
- Logging calls write nothing observable to the client and are elided.
-/

namespace Ags

/-! ## List/string utilities (substring search, joining, maps) -/

/-- `listPrefixEq sub hay` is true when `sub` is an initial segment of `hay`. -/
def listPrefixEq : List Char → List Char → Bool
  | [], _ => true
  | _ :: _, [] => false
  | a :: as, b :: bs => a == b && listPrefixEq as bs

/-- `containsL sub hay` is true when `sub` occurs contiguously inside `hay`
(the model of Go `strings.Contains` / `bytes.Contains`). -/
def containsL (sub : List Char) : List Char → Bool
  | [] => listPrefixEq sub []
  | h :: t => listPrefixEq sub (h :: t) || containsL sub t

/-- Go `strings.Contains s sub`. -/
def strContains (s sub : String) : Bool := containsL sub.data s.data

/-- Go `strings.Join xs sep` (and the separator-interleaving of the JSON encoder). -/
def joinSep (sep : String) : List String → String
  | [] => ""
  | [x] => x
  | x :: xs => x ++ sep ++ joinSep sep xs

/-- Association-list map with Go map overwrite semantics:
`m[k] = v` replaces the binding for `k` if present, else appends it. -/
def mapSet {α : Type} (m : List (String × α)) (k : String) (v : α) : List (String × α) :=
  match m with
  | [] => [(k, v)]
  | (k', v') :: rest => if k' == k then (k, v) :: rest else (k', v') :: mapSet rest k v

/-- Association-list map lookup (Go `m[k]`, `ok` form). -/
def mapGet {α : Type} (m : List (String × α)) (k : String) : Option α :=
  match m with
  | [] => none
  | (k', v) :: rest => if k' == k then some v else mapGet rest k

/-- Go `http.Header.Get`: empty string when the key is absent. -/
def headerGet (m : List (String × String)) (k : String) : String := (mapGet m k).getD ""

/-- Split a character list at every occurrence of `c` (model of `strings.Split`
restricted to a one-character separator). -/
def splitOnChar (c : Char) : List Char → List (List Char)
  | [] => [[]]
  | a :: rest =>
    if a == c then [] :: splitOnChar c rest
    else
      match splitOnChar c rest with
      | [] => [[a]]
      | x :: xs => (a :: x) :: xs

/-- Drop leading and trailing spaces (model of `strings.TrimSpace` for the
space-separated header tokens the claims touch). -/
def trimSpaces (l : List Char) : List Char :=
  ((l.dropWhile (fun c => c == ' ')).reverse.dropWhile (fun c => c == ' ')).reverse

/-- Lower-case every character. -/
def lowerChars (l : List Char) : List Char := l.map Char.toLower

/-- Interleave `/` between path segments. -/
def joinCharParts : List (List Char) → List Char
  | [] => []
  | [p] => p
  | p :: rest => p ++ '/' :: joinCharParts rest

/-- Model of Go `path.Join a b` for dot-free segments: the non-empty
`/`-separated segments of both arguments re-joined with single slashes,
keeping a leading slash when the first non-empty argument had one. -/
def pathJoin (a b : String) : String :=
  let parts := ((splitOnChar '/' a.data) ++ (splitOnChar '/' b.data)).filter (fun p => !p.isEmpty)
  let joined := joinCharParts parts
  if a.data.head? == some '/' || (a.data.isEmpty && b.data.head? == some '/')
  then String.mk ('/' :: joined) else String.mk joined

/-- Go `fmt.Sprintf "%06d"`: decimal digits, left-padded with zeros to width 6. -/
def pad6 (n : Nat) : String :=
  let s := toString n
  if s.length < 6 then String.mk (List.replicate (6 - s.length) '0') ++ s else s

/-! ## JSON values and the encoder

`JVal` models the `interface\x7b\x7d` payloads handed to `encoding/json`;
`encodeJVal` models the encoder's output for strings needing no escapes.
Go encodes `map[string]interface\x7b\x7d` with keys in sorted order; every
object below is written with its keys already sorted.
-/

inductive JVal : Type where
  | str (s : String)
  | bool (b : Bool)
  | arr (xs : List JVal)
  | obj (fields : List (String × JVal))

mutual

def encodeJVal : JVal → String
  | .str s => "\"" ++ s ++ "\""
  | .bool b => if b then "true" else "false"
  | .arr xs => "[" ++ encodeJList xs ++ "]"
  | .obj fs => "\x7b" ++ encodeJFields fs ++ "\x7d"

def encodeJList : List JVal → String
  | [] => ""
  | [x] => encodeJVal x
  | x :: xs => encodeJVal x ++ "," ++ encodeJList xs

def encodeJFields : List (String × JVal) → String
  | [] => ""
  | [f] => "\"" ++ f.1 ++ "\":" ++ encodeJVal f.2
  | f :: fs => "\"" ++ f.1 ++ "\":" ++ encodeJVal f.2 ++ "," ++ encodeJFields fs

end

/-! ## Structured error model (`errors.go`) -/

/-- `type ErrorCode string`. -/
abbrev ErrorCode := String

def ErrCodeInternal : ErrorCode := "INTERNAL_ERROR"
def ErrCodeValidation : ErrorCode := "VALIDATION_ERROR"
def ErrCodeUnauthorized : ErrorCode := "UNAUTHORIZED"
def ErrCodeNotFound : ErrorCode := "NOT_FOUND"
def ErrCodeBadRequest : ErrorCode := "BAD_REQUEST"

/-- A plain (non-`AppError`) Go error value, carrying its concrete type name
(what `%T` prints) and its message. -/
structure PlainErr where
  typeName : String
  message : String
deriving DecidableEq

/-- `ErrorContext`: logging-only context of one detail. `time.Time` is
modelled as a `Nat` timestamp supplied at the call site. -/
structure ErrorContext where
  stack : List String
  time : Nat
  metadata : List (String × String)
deriving DecidableEq

/-- `ErrorDetail`. The Go zero value of `Field` is `""`. -/
structure ErrorDetail where
  code : ErrorCode
  message : String
  field : String
  context : ErrorContext
deriving DecidableEq

/-- `AppError`. `Context context.Context` is omitted: it is request plumbing
that no claim observes. -/
structure AppError where
  mainError : Option PlainErr
  code : ErrorCode
  message : String
  details : List ErrorDetail
  internalLogs : List String
  statusCode : Nat
deriving DecidableEq

/-- `getHTTPStatusForErrorCode`: the fixed code→status table. -/
def getHTTPStatusForErrorCode (code : ErrorCode) : Nat :=
  if code == ErrCodeValidation || code == ErrCodeBadRequest then 400
  else if code == ErrCodeUnauthorized then 401
  else if code == ErrCodeNotFound then 404
  else 500

/-- `NewError`: the status code is computed once here, from the table. -/
def NewError (code : ErrorCode) (message : String) : AppError :=
  { mainError := none
    code := code
    message := message
    details := []
    internalLogs := []
    statusCode := getHTTPStatusForErrorCode code }

/-- `WithError` sets the wrapped original error. -/
def AppError.WithError (e : AppError) (err : PlainErr) : AppError :=
  { e with mainError := some err }

/-- The stack-line post-processing inside `WithDetail`: split the raw
`runtime.Stack` text on newlines, trim each line, keep the non-blank ones. -/
def captureStack (raw : String) : List String :=
  (splitOnChar '\n' raw.data).filterMap
    (fun l => let t := trimSpaces l; if t.isEmpty then none else some (String.mk t))

/-- `WithDetail`: appends a detail that captures a timestamp, a fresh metadata
map and a call-stack snapshot. `now` and `stackRaw` stand for the effectful
`time.Now()` and `runtime.Stack` reads. -/
def AppError.WithDetail (e : AppError) (now : Nat) (stackRaw : String)
    (code : ErrorCode) (message : String) : AppError :=
  { e with details := e.details ++
      [{ code := code, message := message, field := ""
         context := { stack := captureStack stackRaw, time := now, metadata := [] } }] }

/-- `WithField`: appends a validation detail with the field name set.
Note the source builds the detail directly and captures no stack. -/
def AppError.WithField (e : AppError) (now : Nat) (fieldName message : String) : AppError :=
  { e with details := e.details ++
      [{ code := ErrCodeValidation, message := message, field := fieldName
         context := { stack := [], time := now, metadata := [] } }] }

/-- Apply `f` to the last element of a list (identity on `[]`). -/
def setLast {α : Type} (f : α → α) : List α → List α
  | [] => []
  | [x] => [f x]
  | x :: rest => x :: setLast f rest

/-- `WithMetadata`: writes into the metadata map of the most recently added
detail; a no-op when there is no detail. -/
def AppError.WithMetadata (e : AppError) (k v : String) : AppError :=
  if e.details.isEmpty then e
  else
    let upd := fun (d : ErrorDetail) =>
      { d with context := { d.context with metadata := mapSet d.context.metadata k v } }
    { e with details := setLast upd e.details }

/-- `AddInternalLog` (the argument is the already-formatted message). -/
def AppError.AddInternalLog (e : AppError) (msg : String) : AppError :=
  { e with internalLogs := e.internalLogs ++ [msg] }

/-- An `error` value reaching `Handler.Error`: either an `AppError` or any
other error type. -/
inductive GoError : Type where
  | app (e : AppError)
  | plain (p : PlainErr)
deriving DecidableEq

/-! ## HTTP model: requests, the capturing response writer, the world

`Request` carries the header/method/path/proto data the detectors and
handlers inspect, the decoded debug-toggle body (`json.Decode` into
`\x7benable bool\x7d`; `none` models a decode error), and the
request-scoped context as a string map.

`RW` is the capturing `ResponseWriter` wrapper of `ags.go`: first
`WriteHeader` wins, `Write` commits status 200 first, sizes accumulate.
`World` adds the process state a request can read or write: the
debug-capture flag guarded by the RW lock, and an event log used to
observe execution order of instrumented middleware (the counterpart of
the order-recording slices in the repository's tests).
-/

abbrev Ctx := List (String × String)

structure Request where
  method : String
  path : String
  protoMajor : Nat
  headers : List (String × String)
  remoteAddr : String
  bodyEnable : Option Bool
  ctx : Ctx
deriving DecidableEq

structure RW where
  headers : List (String × String)
  status : Nat
  size : Nat
  committed : Bool
  body : String
deriving DecidableEq

/-- `ResponseWriter.WriteHeader`: only the first call takes effect. -/
def RW.writeHeader (w : RW) (st : Nat) : RW :=
  if w.committed then w else { w with status := st, committed := true }

/-- `ResponseWriter.Write`: commits 200 if nothing was committed, appends the
bytes and counts them (byte counts are modelled as character counts). -/
def RW.write (w : RW) (b : String) : RW :=
  let w := if w.committed then w else w.writeHeader 200
  { w with body := w.body ++ b, size := w.size + b.length }

structure World where
  resp : RW
  debugEnabled : Bool
  events : List String
deriving DecidableEq

def World.writeHeader (w : World) (st : Nat) : World := { w with resp := w.resp.writeHeader st }

def World.write (w : World) (b : String) : World := { w with resp := w.resp.write b }

/-- `w.Header().Set(k, v)` on the response. -/
def World.setHeader (w : World) (k v : String) : World :=
  { w with resp := { w.resp with headers := mapSet w.resp.headers k v } }

/-- Record one label in the execution-order log. -/
def World.logEvent (w : World) (l : String) : World := { w with events := w.events ++ [l] }

/-- An `http.Handler` as the dispatcher sees one. -/
abbrev HandlerM := Request → World → World

/-- `type Middleware func(http.Handler) http.Handler`. -/
abbrev MW := HandlerM → HandlerM

/-! ## Envelope responses and the error handler -/

/-- The encoded `StandardResponse` envelope. Field order follows the struct:
`ok`, `message`, then `results` and `error` when present (`omitempty`).
The encoder terminates its output with a newline. -/
def encodeResponse (ok : Bool) (message : String) (results : Option JVal)
    (errInfo : Option (ErrorCode × String)) : String :=
  encodeJVal (.obj ([("ok", .bool ok), ("message", .str message)]
    ++ (match results with | none => [] | some v => [("results", v)])
    ++ (match errInfo with
        | none => []
        | some ci => [("error", .obj [("code", .str ci.1), ("message", .str ci.2)])]))) ++ "\n"

/-- `RespondJSON`: content type, status, then the envelope;
`ok` is true iff the status is in [200, 300). -/
def RespondJSON (w : World) (status : Nat) (message : String) (data : Option JVal) : World :=
  let w := w.setHeader "Content-Type" "application/json"
  let w := w.writeHeader status
  w.write (encodeResponse (decide (200 ≤ status) && decide (status < 300)) message data none)

/-- The `AppError` branch of `Handler.Error`: log internals (elided), then
send only `\x7bcode, message\x7d` inside the envelope at the precomputed
status code. -/
def appErrorRespond (e : AppError) (w : World) : World :=
  let w := w.setHeader "Content-Type" "application/json"
  let w := w.writeHeader e.statusCode
  w.write (encodeResponse false e.message none (some (e.code, e.message)))

/-- Weight used to justify the single recursion step of `Handler.Error`. -/
def errWeight : GoError → Nat
  | .app _ => 0
  | .plain _ => 1

/-- `Handler.Error`: an `AppError` is answered directly; any other error is
wrapped into a fresh internal-error `AppError` carrying the original as
`MainError` plus an internal log naming its concrete type, and the handler
recurses once on the wrapped error. -/
def HandlerError (err : GoError) (w : World) : World :=
  match err with
  | .app e => appErrorRespond e w
  | .plain p =>
      HandlerError (.app (((NewError ErrCodeInternal "An internal error occurred").WithError p
        ).AddInternalLog ("Unexpected error type: " ++ p.typeName))) w
termination_by errWeight err
decreasing_by simp [errWeight]

/-! ## Protocol handlers and detectors -/

structure ProtocolHandler where
  detect : Request → Bool
  handle : HandlerM

/-- `GRPCHandler.DetectProtocol`:
`r.ProtoMajor == 2 && strings.Contains(r.Header.Get("Content-Type"), "application/grpc")`. -/
def grpcDetect (r : Request) : Bool :=
  r.protoMajor == 2 && strContains (headerGet r.headers "Content-Type") "application/grpc"

/-- One comma-separated header token list contains `token` (compared
case-insensitively after trimming), as gorilla's header-token scan does. -/
def tokenListContains (headerValue token : String) : Bool :=
  (splitOnChar ',' headerValue.data).any
    (fun t => lowerChars (trimSpaces t) == token.data)

/-- `WebSocketHandler.DetectProtocol`, i.e. `websocket.IsWebSocketUpgrade`:
the standard upgrade handshake headers. -/
def wsDetect (r : Request) : Bool :=
  tokenListContains (headerGet r.headers "Connection") "upgrade" &&
  tokenListContains (headerGet r.headers "Upgrade") "websocket"

/-! ## Route table, middleware chains, groups (`ags.go`) -/

/-- HTTP method constants. -/
def MethodGet : String := "GET"
def MethodPost : String := "POST"

structure RouteConfig where
  methods : List String
  handler : HandlerM

/-- `PreRequestFunc`: may replace the context, write to the response, and
abort with an error. -/
abbrev PreFn := Ctx → Request → World → (Ctx × World × Option GoError)

/-- `PostRequestFunc` (the elapsed duration it receives is unmodelled). -/
abbrev PostFn := Ctx → Request → World → World

/-- The `Handler` configuration visible to dispatch. `routes` is the Go map,
`routeOrder` the registration-order slice. The Go `wrapHandler` closure reads
`h.cfg.PrePhase`, `h.cfg.PostPhase` and the debug flag through the live `h`
pointer at request time, and routes are only mutated during single-threaded
setup; the embedding therefore stores each route's raw (group-wrapped)
handler and applies the wrapping with the dispatch-time state in
`serveInner`. -/
structure HandlerState where
  routes : List (String × RouteConfig)
  routeOrder : List String
  middleware : List MW
  protocols : List ProtocolHandler
  prePhase : List PreFn
  postPhase : List PostFn
  staticHandler : Option HandlerM
  debugAuthKey : String

/-- `isMethodAllowed`: linear scan of the allowed list. -/
def isMethodAllowed (method : String) : List String → Bool
  | [] => false
  | m :: rest => if method == m then true else isMethodAllowed method rest

/-- `handleMethodNotAllowed`: `Allow` header comma-joined, then a 405
envelope whose results enumerate the allowed methods (Go encodes this map
with its keys sorted: `allowed_methods` before `current_method`). -/
def handleMethodNotAllowed (allowedMethods : List String) (r : Request) (w : World) : World :=
  let w := w.setHeader "Allow" (joinSep ", " allowedMethods)
  RespondJSON w 405 "Method not allowed"
    (some (.obj [("allowed_methods", .arr (allowedMethods.map JVal.str)),
                 ("current_method", .str r.method)]))

/-- `http.NotFound`. -/
def notFoundResp (w : World) : World :=
  ((w.setHeader "Content-Type" "text/plain; charset=utf-8").writeHeader 404).write
    "404 page not found\n"

/-- Run the pre-request phase functions in order; the first error aborts. -/
def runPre : List PreFn → Ctx → Request → World → (Ctx × World × Option GoError)
  | [], ctx, _, w => (ctx, w, none)
  | p :: rest, ctx, r, w =>
    match p ctx r w with
    | (ctx2, w2, some e) => (ctx2, w2, some e)
    | (ctx2, w2, none) => runPre rest ctx2 r w2

/-- Run the post-request phase functions in order; they never abort. -/
def runPost : List PostFn → Ctx → Request → World → World
  | [], _, _, w => w
  | p :: rest, ctx, r, w => runPost rest ctx r (p ctx r w)

/-- The body of `wrapHandler`'s closure: pre-request phase (an error goes to
`Handler.Error` and nothing further runs), the handler with the threaded
context, then the post-request phase. Debug request/response dumps only log
and are elided. -/
def execWrapped (pres : List PreFn) (posts : List PostFn) (handler : HandlerM) : HandlerM :=
  fun r w =>
    match runPre pres r.ctx r w with
    | (_, w1, some e) => HandlerError e w1
    | (ctx1, w1, none) => runPost posts ctx1 r (handler { r with ctx := ctx1 } w1)

/-- First protocol handler whose detector claims the request. -/
def firstDetect : List ProtocolHandler → Request → Option ProtocolHandler
  | [], _ => none
  | p :: rest, r => if p.detect r then some p else firstDetect rest r

/-- The inner handler built in `ServeHTTP`: protocols first (short-circuit),
then exact-path route lookup with the 405 check, then static fallback or 404. -/
def serveInner (h : HandlerState) : HandlerM := fun r w =>
  match firstDetect h.protocols r with
  | some p => p.handle r w
  | none =>
    match mapGet h.routes r.path with
    | some route =>
        if isMethodAllowed r.method route.methods then
          execWrapped h.prePhase h.postPhase route.handler r w
        else handleMethodNotAllowed route.methods r w
    | none =>
        match h.staticHandler with
        | some sh => sh r w
        | none => notFoundResp w

/-- The wrapping loop `for i := len(mws) - 1; i >= 0; i--` — the last list
element wraps first, so the first-registered middleware ends up outermost. -/
def chainMW (mws : List MW) (inner : HandlerM) : HandlerM :=
  mws.foldr (fun m acc => m acc) inner

/-- `Handler.ServeHTTP`: global middleware applied in reverse around the
inner handler. -/
def ServeHTTP (h : HandlerState) : HandlerM := fun r w =>
  chainMW h.middleware (serveInner h) r w

/-- `Handler.Route`: empty methods default to GET; the route map entry is
overwritten, the order slice appended. -/
def HRoute (h : HandlerState) (pattern : String) (handler : HandlerM)
    (methods : List String) : HandlerState :=
  let ms := if methods.isEmpty then [MethodGet] else methods
  { h with routes := mapSet h.routes pattern { methods := ms, handler := handler }
           routeOrder := h.routeOrder ++ [pattern] }

/-- `Handler.Use`. -/
def HUse (h : HandlerState) (mws : List MW) : HandlerState :=
  { h with middleware := h.middleware ++ mws }

/-- `Handler.AddPreRequestFunc`. -/
def addPreRequestFunc (h : HandlerState) (f : PreFn) : HandlerState :=
  { h with prePhase := h.prePhase ++ [f] }

/-- A route group: a path prefix plus its own middleware list. -/
structure Group where
  pfx : String
  middleware : List MW

/-- `Handler.Group`. -/
def HGroup (pfx : String) (mw : List MW) : Group := { pfx := pfx, middleware := mw }

/-- `Group.Use`. -/
def GUse (g : Group) (mws : List MW) : Group :=
  { g with middleware := g.middleware ++ mws }

/-- `Group.Group`: joined prefix and a copy of the parent's middleware. -/
def GGroup (g : Group) (pfx : String) : Group :=
  { pfx := pathJoin g.pfx pfx, middleware := g.middleware }

/-- `Group.Route`: wraps the handler in the group middleware (reverse order)
and registers under the joined path. -/
def GRoute (g : Group) (h : HandlerState) (pattern : String) (handler : HandlerM)
    (methods : List String) : HandlerState :=
  HRoute h (pathJoin g.pfx pattern) (chainMW g.middleware handler) methods

/-! ## Built-in routes and `NewHandler` -/

/-- `authenticateDebug`: 401 when no key is configured, when the header is
absent, or when it mismatches; otherwise run the wrapped handler. -/
def authenticateDebug (authKey : String) (next : HandlerM) : HandlerM := fun r w =>
  let authHeader := headerGet r.headers "X-Debug-Key"
  if authKey == "" then
    HandlerError (.app (NewError ErrCodeUnauthorized "Debug authentication not configured")) w
  else if authHeader == "" then
    HandlerError (.app (NewError ErrCodeUnauthorized "Debug key required")) w
  else if authHeader != authKey then
    HandlerError (.app (NewError ErrCodeUnauthorized "Invalid debug key")) w
  else next r w

/-- `handleDebugToggle`: decode `\x7benable bool\x7d` (400 on failure), store
the decoded value as the debug flag, and report it in the envelope. -/
def handleDebugToggle : HandlerM := fun r w =>
  match r.bodyEnable with
  | none => HandlerError (.app (NewError ErrCodeBadRequest "Invalid request body")) w
  | some enable =>
      let w := { w with debugEnabled := enable }
      RespondJSON w 200 "Debug mode updated" (some (.obj [("debug_enabled", .bool enable)]))

/-- The `/_/health` handler: 200 and the literal body `OK`. -/
def healthHandler : HandlerM := fun _ w => (w.writeHeader 200).write "OK"

/-- The pre-request function `NewHandler` installs on every handler. -/
def preReqFn : PreFn := fun ctx _ w => (ctx, w.setHeader "X-PreReq" "valid", none)

/-- `NewHandler`: registers `/_/debug/toggle` then `/_/health`, appends the
gRPC and WebSocket protocol handlers in that order, and adds the default
pre-request function. `authKey` models `DEBUG_AUTH_KEY`; `grpcHandle` and
`wsHandle` are the externally-implemented protocol `Handle` bodies. -/
def newHandler (authKey : String) (cfgPre : List PreFn) (cfgPost : List PostFn)
    (grpcHandle wsHandle : HandlerM) : HandlerState :=
  let h0 : HandlerState :=
    { routes := [], routeOrder := [], middleware := [], protocols := []
      prePhase := cfgPre, postPhase := cfgPost, staticHandler := none
      debugAuthKey := authKey }
  let h1 := HRoute h0 "/_/debug/toggle" (authenticateDebug authKey handleDebugToggle) [MethodPost]
  let h2 := HRoute h1 "/_/health" healthHandler [MethodGet]
  let h3 := { h2 with protocols := h2.protocols ++
      [{ detect := grpcDetect, handle := grpcHandle },
       { detect := wsDetect, handle := wsHandle }] }
  addPreRequestFunc h3 preReqFn

/-! ## Request-ID middleware (`pkg/middleware/request_id.go`) -/

def RequestIDHeader : String := "X-ReqId"

/-- The 64-bit FNV-1a hash of a byte sequence. -/
def fnv64 (bytes : List Nat) : Nat :=
  bytes.foldl (fun h b => ((h ^^^ b) * 1099511628211) % 2 ^ 64) 14695981039346656037

/-- `shardCounter`: hash the key and reduce mod the 64 shards. Keys are the
(ASCII) remote addresses, whose UTF-8 bytes are their character codes. -/
def shardIndex (key : String) : Nat := fnv64 (key.data.map Char.toNat) % 64

/-- The process-wide shard-counter array. -/
structure IDState where
  counters : List Nat
deriving DecidableEq

def getShard (st : IDState) (i : Nat) : Nat := st.counters.getD i 0

/-- `nextRequestID`: atomically increment the selected shard (uint64 wraps)
and return the new value. -/
def nextRequestID (st : IDState) (key : String) : IDState × Nat :=
  let i := shardIndex key
  let v := (getShard st i + 1) % 2 ^ 64
  ({ counters := st.counters.set i v }, v)

structure ReqIDOut where
  st : IDState
  req : Request
  id : String
deriving DecidableEq

/-- The per-request body of the `RequestID` middleware: build
`prefix + "-" + %06d(counter)`, append it after an existing header value
with `/`, then store the final ID in the outbound header and the context. -/
def requestIDStep (pfx : String) (st : IDState) (r : Request) : ReqIDOut :=
  let next := nextRequestID st r.remoteAddr
  let newID := pfx ++ "-" ++ pad6 next.2
  let existingRequestID := headerGet r.headers RequestIDHeader
  let finalID := if existingRequestID != "" then existingRequestID ++ "/" ++ newID else newID
  { st := next.1
    req := { r with headers := mapSet r.headers RequestIDHeader finalID
                    ctx := mapSet r.ctx "req_id" finalID }
    id := finalID }

/-! ## Concrete fixtures used by witnesses and counterexamples -/

/-- A fresh response writer/world, as `wrapHandler` constructs it
(status initialised to 200, nothing committed). -/
def w0 : World :=
  { resp := { headers := [], status := 200, size := 0, committed := false, body := "" }
    debugEnabled := false
    events := [] }

/-- A stand-in for the embedded gRPC server's `Handle`. -/
def grpcStub : HandlerM := fun _ w => w.logEvent "grpc-handled"

/-- A stand-in for the WebSocket handler's `Handle`. -/
def wsStub : HandlerM := fun _ w => w.logEvent "ws-handled"

/-- A trivial route handler. -/
def okHandler : HandlerM := fun _ w => (w.writeHeader 200).write "ok"

/-- A middleware that records a label before invoking the next handler,
the instrumentation the order tests use. -/
def logMW (l : String) : MW := fun next => fun r w => next r (w.logEvent l)

/-- A handler that records a label. -/
def logHandler (l : String) : HandlerM := fun _ w => w.logEvent l

/-- Default-configured handler with a user route `GET /collide` whose path an
incoming gRPC request also uses. -/
def hC1 : HandlerState :=
  HRoute (newHandler "" [] [] grpcStub wsStub) "/collide" okHandler [MethodGet]

/-- An HTTP/2 request whose `Content-Type` satisfies the gRPC detector and
whose path exactly matches the registered route `/collide`. -/
def reqC1 : Request :=
  { method := "POST", path := "/collide", protoMajor := 2
    headers := [("Content-Type", "application/grpc")]
    remoteAddr := "10.0.0.1:50051", bodyEnable := none, ctx := [] }

/-- The C2 scenario: global middleware `G`, group `/api` with middleware `A`,
nested group `/v1` with middleware `B`, route `GET /api/v1/test` with
handler `H`. -/
def c2State (g a b hl : String) : HandlerState :=
  let h0 := newHandler "" [] [] grpcStub wsStub
  let h1 := HUse h0 [logMW g]
  let api := HGroup "/api" []
  let api := GUse api [logMW a]
  let v1 := GGroup api "/v1"
  let v1 := GUse v1 [logMW b]
  GRoute v1 h1 "/test" (logHandler hl) [MethodGet]

/-- A plain HTTP/1.1 request for the nested-group route. -/
def reqC2 : Request :=
  { method := "GET", path := "/api/v1/test", protoMajor := 1
    headers := [], remoteAddr := "10.0.0.2:4000", bodyEnable := none, ctx := [] }

/-- Default-configured handler with only `GET /test` registered. -/
def hC6 : HandlerState :=
  HRoute (newHandler "" [] [] grpcStub wsStub) "/test" okHandler [MethodGet]

/-- A `POST` to the `GET`-only route. -/
def reqC6 : Request :=
  { method := "POST", path := "/test", protoMajor := 1
    headers := [], remoteAddr := "10.0.0.3:4000", bodyEnable := none, ctx := [] }

/-- Default-configured handler whose debug key is `"secret"`. -/
def hC7 : HandlerState := newHandler "secret" [] [] grpcStub wsStub

/-- A debug-toggle request with the correct key and body `\x7b"enable":true\x7d`. -/
def reqC7 : Request :=
  { method := "POST", path := "/_/debug/toggle", protoMajor := 1
    headers := [("X-Debug-Key", "secret")]
    remoteAddr := "10.0.0.4:4000", bodyEnable := some true, ctx := [] }

/-- A world in which debug capture is already enabled. -/
def wDebugOn : World := { w0 with debugEnabled := true }

/-- A `GET /_/health` request. -/
def reqHealth : Request :=
  { method := "GET", path := "/_/health", protoMajor := 1
    headers := [], remoteAddr := "10.0.0.5:4000", bodyEnable := none, ctx := [] }

/-- A request that already carries `X-ReqId: abc`. -/
def reqC4 : Request :=
  { method := "GET", path := "/x", protoMajor := 1
    headers := [("X-ReqId", "abc")]
    remoteAddr := "10.0.0.1:1234", bodyEnable := none, ctx := [] }

/-- The shard-counter array at process start: 64 zeroed counters. -/
def idState0 : IDState := { counters := List.replicate 64 0 }

/-- Setting the `field` of the most recently added detail — the second half
of the claimed desugaring of `WithField`. -/
def setNewDetailField (fieldName : String) (e : AppError) : AppError :=
  { e with details := setLast (fun d => { d with field := fieldName }) e.details }

/-- A sequence of `Route` registrations, all on the same pattern. -/
def registerSeq (p : String) : HandlerState → List (HandlerM × List String) → HandlerState
  | h, [] => h
  | h, fm :: rest => registerSeq p (HRoute h p fm.1 fm.2) rest

/-- A sequence of user `Route` registrations (pattern, handler, methods). -/
def registerRoutes : HandlerState → List (String × HandlerM × List String) → HandlerState
  | h, [] => h
  | h, x :: rest => registerRoutes (HRoute h x.1 x.2.1 x.2.2) rest

/-- The fresh internal-error `AppError` that `Handler.Error` builds around a
non-`AppError` error before recursing. -/
def wrapUnexpected (p : PlainErr) : AppError :=
  ((NewError ErrCodeInternal "An internal error occurred").WithError p).AddInternalLog
    ("Unexpected error type: " ++ p.typeName)

/-! ## Helper lemmas: substring search, maps, `setLast` -/

theorem listPrefixEq_append {sub l : List Char} (t : List Char)
    (h : listPrefixEq sub l = true) : listPrefixEq sub (l ++ t) = true := by
  induction sub generalizing l with
  | nil => simp [listPrefixEq]
  | cons a as ih =>
      cases l with
      | nil => simp [listPrefixEq] at h
      | cons b bs =>
          simp only [listPrefixEq, Bool.and_eq_true] at h ⊢
          exact ⟨h.1, ih h.2⟩

theorem listPrefixEq_refl (l : List Char) : listPrefixEq l l = true := by
  induction l with
  | nil => rfl
  | cons a as ih => simp [listPrefixEq, ih]

theorem containsL_of_prefixEq {sub hay : List Char}
    (h : listPrefixEq sub hay = true) : containsL sub hay = true := by
  cases hay with
  | nil => simpa [containsL] using h
  | cons a t => simp [containsL, h]

theorem containsL_nil (hay : List Char) : containsL [] hay = true := by
  cases hay <;> simp [containsL, listPrefixEq]

theorem containsL_append_right {sub b : List Char} (a : List Char)
    (h : containsL sub b = true) : containsL sub (a ++ b) = true := by
  induction a with
  | nil => simpa using h
  | cons x xs ih => simp [containsL, ih]

theorem containsL_append_left {sub a : List Char} (b : List Char)
    (h : containsL sub a = true) : containsL sub (a ++ b) = true := by
  induction a with
  | nil =>
      simp only [containsL] at h
      cases sub with
      | nil => simpa using containsL_nil b
      | cons s ss => simp [listPrefixEq] at h
  | cons x xs ih =>
      simp only [containsL, Bool.or_eq_true] at h
      rcases h with h | h
      · have := listPrefixEq_append b h
        simp only [List.cons_append] at this
        simp [containsL, this]
      · simp [containsL, ih h]

theorem containsL_self (l : List Char) : containsL l l = true :=
  containsL_of_prefixEq (listPrefixEq_refl l)

theorem strData_append (a b : String) : (a ++ b).data = a.data ++ b.data := by
  cases a; cases b; rfl

theorem mapGet_mapSet_self {α : Type} (m : List (String × α)) (k : String) (v : α) :
    mapGet (mapSet m k v) k = some v := by
  induction m with
  | nil => simp [mapSet, mapGet]
  | cons kv rest ih =>
      by_cases h : kv.1 == k
      · simp [mapSet, mapGet, h]
      · simp only [mapSet, mapGet]
        rw [if_neg (by simpa using h)]
        simp only [mapGet]
        rw [if_neg (by simpa using h)]
        exact ih

theorem setLast_append_singleton {α : Type} (f : α → α) (xs : List α) (x : α) :
    setLast f (xs ++ [x]) = xs ++ [f x] := by
  induction xs with
  | nil => rfl
  | cons a as ih =>
      cases as with
      | nil => rfl
      | cons b bs => simpa [setLast] using ih

theorem mapGet_mapSet_ne {α : Type} (m : List (String × α)) (k k' : String) (v : α)
    (h : (k' == k) = false) : mapGet (mapSet m k' v) k = mapGet m k := by
  induction m with
  | nil => simp [mapSet, mapGet, h]
  | cons kv rest ih =>
      by_cases hk : kv.1 == k'
      · have hne : (kv.1 == k) = false := by
          have := (beq_iff_eq ..).mp hk
          simp only [beq_eq_false_iff_ne, ne_eq] at h ⊢
          simpa [this] using h
        simp [mapSet, mapGet, hk, hne, h]
      · simp only [mapSet, mapGet]
        rw [if_neg (by simpa using hk)]
        simp only [mapGet]
        by_cases hkk : kv.1 == k
        · simp [hkk]
        · rw [if_neg (by simpa using hkk), if_neg (by simpa using hkk)]
          exact ih

/-- Whatever occurs in the encoded value of the head field occurs in the
encoded field list. -/
theorem containsL_encodeJFields_headval (key : String) (v : JVal)
    (fs : List (String × JVal)) {sub : List Char}
    (h : containsL sub (encodeJVal v).data = true) :
    containsL sub (encodeJFields ((key, v) :: fs)).data = true := by
  cases fs with
  | nil =>
      simp only [encodeJFields, strData_append]
      exact containsL_append_right _ h
  | cons f fs =>
      simp only [encodeJFields, strData_append]
      exact containsL_append_left _ (containsL_append_left _ (containsL_append_right _ h))

/-- Whatever occurs in the encoded tail fields occurs in the encoded field
list (the tail must be non-empty for its encoding to appear verbatim). -/
theorem containsL_encodeJFields_tail (f : String × JVal) {fs : List (String × JVal)}
    {sub : List Char} (hne : fs ≠ [])
    (h : containsL sub (encodeJFields fs).data = true) :
    containsL sub (encodeJFields (f :: fs)).data = true := by
  cases fs with
  | nil => exact absurd rfl hne
  | cons g gs =>
      simp only [encodeJFields, strData_append]
      exact containsL_append_right _ h

/-- Occurrence inside an encoded object. -/
theorem containsL_encodeJObj {fs : List (String × JVal)} {sub : List Char}
    (h : containsL sub (encodeJFields fs).data = true) :
    containsL sub (encodeJVal (.obj fs)).data = true := by
  simp only [encodeJVal, strData_append]
  exact containsL_append_left _ (containsL_append_right _ h)

/-- Occurrence inside an encoded array. -/
theorem containsL_encodeJArr {xs : List JVal} {sub : List Char}
    (h : containsL sub (encodeJList xs).data = true) :
    containsL sub (encodeJVal (.arr xs)).data = true := by
  simp only [encodeJVal, strData_append]
  exact containsL_append_left _ (containsL_append_right _ h)

/-- A quoted string contains itself. -/
theorem containsL_encodeJStr (s : String) :
    containsL s.data (encodeJVal (.str s)).data = true := by
  simp only [encodeJVal, strData_append]
  exact containsL_append_left _ (containsL_append_right _ (containsL_self s.data))

/-- Each member of a string list is a substring of the encoded JSON array
element list (the elements are quoted copies of the members). -/
theorem containsL_encodeJList_mem {m : String} {xs : List String} (hm : m ∈ xs) :
    containsL m.data (encodeJList (xs.map JVal.str)).data = true := by
  induction xs with
  | nil => cases hm
  | cons x ys ih =>
      cases ys with
      | nil =>
          rcases List.mem_singleton.mp hm with rfl
          simp only [List.map, encodeJList, encodeJVal, strData_append]
          exact containsL_append_left _ (containsL_append_right _ (containsL_self m.data))
      | cons y yys =>
          simp only [List.map, encodeJList, strData_append]
          rcases List.mem_cons.mp hm with rfl | hmem
          · refine containsL_append_left _ (containsL_append_left _ ?_)
            simp only [encodeJVal, strData_append]
            exact containsL_append_left _ (containsL_append_right _ (containsL_self m.data))
          · exact containsL_append_right _ (ih hmem)

/-! ## Claim C3: the fixed error-code → HTTP-status table -/

/-- **C3.** For every `ErrorCode` and every message, `NewError` sets
`StatusCode` to the fixed table value: Validation and BadRequest map to 400,
Unauthorized to 401, NotFound to 404, and any other code yields 500; the
mapping is stored at construction. -/
theorem newError_status_table (m : String) (c : ErrorCode) :
    (NewError ErrCodeValidation m).statusCode = 400 ∧
    (NewError ErrCodeBadRequest m).statusCode = 400 ∧
    (NewError ErrCodeUnauthorized m).statusCode = 401 ∧
    (NewError ErrCodeNotFound m).statusCode = 404 ∧
    (c ≠ ErrCodeValidation → c ≠ ErrCodeBadRequest → c ≠ ErrCodeUnauthorized →
      c ≠ ErrCodeNotFound → (NewError c m).statusCode = 500) := by
  refine ⟨rfl, rfl, rfl, rfl, ?_⟩
  intro h1 h2 h3 h4
  simp [NewError, getHTTPStatusForErrorCode, h1, h2, h3, h4]

/-- Witness for C3: the unknown code `"SOMETHING_ELSE"` satisfies the
hypotheses and lands on 500. -/
theorem newError_status_table_witness :
    ("SOMETHING_ELSE" : ErrorCode) ≠ ErrCodeValidation ∧
    (NewError "SOMETHING_ELSE" "boom").statusCode = 500 :=
  ⟨by decide,
   (newError_status_table "boom" "SOMETHING_ELSE").2.2.2.2
     (by decide) (by decide) (by decide) (by decide)⟩

/-! ## Claim C8: `WithField` versus `WithDetail` -/

/-- **C8 (counterexample).** With any non-blank runtime stack (here the first
line `runtime.Stack` always produces), `WithField` does *not* equal
`WithDetail(ValidationCode, message)` followed by setting the detail's field:
the `WithDetail` detail carries the stack snapshot, the `WithField` detail
carries none. -/
theorem withField_stack_counterexample :
    ¬ ((NewError ErrCodeInternal "x").WithField 0 "email" "bad"
        = setNewDetailField "email"
            ((NewError ErrCodeInternal "x").WithDetail 0 "goroutine 1 [running]:"
              ErrCodeValidation "bad")) := by
  decide

/-- **C8 (amended).** `e.WithField(f, m)` equals
`e.WithDetail(ValidationCode, m)` followed by setting the new detail's field
to `f`, except that `WithField` captures no call-stack snapshot: the equality
holds exactly with an empty stack capture. The detail still carries its own
timestamp and (empty) metadata mapping. -/
theorem withField_eq_withDetail_no_stack (e : AppError) (now : Nat) (f m : String) :
    e.WithField now f m
      = setNewDetailField f (e.WithDetail now "" ErrCodeValidation m) := by
  unfold AppError.WithField AppError.WithDetail setNewDetailField
  simp only [setLast_append_singleton]
  rfl

/-! ## Claim C9: route re-registration semantics -/

theorem registerSeq_order (p : String) (regs : List (HandlerM × List String)) :
    ∀ h : HandlerState,
      (registerSeq p h regs).routeOrder = h.routeOrder ++ List.replicate regs.length p := by
  induction regs with
  | nil => intro h; simp [registerSeq]
  | cons fm rest ih =>
      intro h
      simp only [registerSeq, ih, HRoute, List.length_cons, List.replicate_succ]
      simp [List.append_assoc]

theorem registerSeq_routes_last (p : String) (regs : List (HandlerM × List String)) :
    ∀ (h : HandlerState) (f : HandlerM) (ms : List String),
      mapGet (registerSeq p h (regs ++ [(f, ms)])).routes p
        = some { methods := if ms.isEmpty then [MethodGet] else ms, handler := f } := by
  induction regs with
  | nil =>
      intro h f ms
      simp [registerSeq, HRoute, mapGet_mapSet_self]
  | cons fm rest ih =>
      intro h f ms
      simpa [registerSeq] using ih (HRoute h p fm.1 fm.2) f ms

/-- **C9.** Re-registering a pattern silently replaces the live route-map
entry (last registration wins: its handler and methods are what resolution
returns) while appending the pattern again to the registration-order
sequence, so `n` registrations leave `n` entries for the pattern in the
order sequence; omitting methods defaults the route to GET. -/
theorem route_reregistration (h : HandlerState) (p : String)
    (regs : List (HandlerM × List String)) (f : HandlerM) (ms : List String) :
    mapGet (registerSeq p h (regs ++ [(f, ms)])).routes p
      = some { methods := if ms.isEmpty then [MethodGet] else ms, handler := f } ∧
    (registerSeq p h (regs ++ [(f, ms)])).routeOrder
      = h.routeOrder ++ List.replicate (regs.length + 1) p ∧
    List.count p (registerSeq p h (regs ++ [(f, ms)])).routeOrder
      = List.count p h.routeOrder + (regs.length + 1) ∧
    mapGet (HRoute h p f []).routes p = some { methods := [MethodGet], handler := f } := by
  refine ⟨registerSeq_routes_last p regs h f ms, ?_, ?_, ?_⟩
  · simpa using registerSeq_order p (regs ++ [(f, ms)]) h
  · rw [registerSeq_order p (regs ++ [(f, ms)]) h]
    simp [List.count_append, List.count_replicate_self]
  · simp [HRoute, mapGet_mapSet_self]

/-! ## Claim C4: request-ID chaining -/

/-- **C4.** The `RequestID` middleware: with an existing `X-ReqId` header
value `e`, the resulting ID is `e ++ "/" ++ prefix ++ "-" ++ NNNNNN` (the new
ID is appended with `/`, never overwriting); with no incoming header it is
just `prefix ++ "-" ++ NNNNNN`, where `NNNNNN` is the zero-padded value of
the shard counter selected by hashing the remote address (after its atomic
increment). The final ID is stored in the outbound header and the context. -/
theorem request_id_chaining (pfx : String) (st : IDState) (r : Request) :
    (headerGet r.headers RequestIDHeader = "" →
        (requestIDStep pfx st r).id
          = pfx ++ "-" ++ pad6 ((getShard st (shardIndex r.remoteAddr) + 1) % 2 ^ 64)) ∧
    (headerGet r.headers RequestIDHeader ≠ "" →
        (requestIDStep pfx st r).id
          = headerGet r.headers RequestIDHeader ++ "/"
            ++ (pfx ++ "-" ++ pad6 ((getShard st (shardIndex r.remoteAddr) + 1) % 2 ^ 64))) ∧
    headerGet (requestIDStep pfx st r).req.headers RequestIDHeader
      = (requestIDStep pfx st r).id ∧
    mapGet (requestIDStep pfx st r).req.ctx "req_id" = some (requestIDStep pfx st r).id := by
  refine ⟨?_, ?_, ?_, ?_⟩
  · intro hnone
    simp [requestIDStep, nextRequestID, hnone]
  · intro hsome
    simp only [requestIDStep, nextRequestID, bne_iff_ne, ne_eq, hsome, not_false_eq_true,
      if_true]
  · simp [requestIDStep, headerGet, mapGet_mapSet_self]
  · simp [requestIDStep, mapGet_mapSet_self]

/-- Witness for C4: a request carrying `X-ReqId: abc` from `10.0.0.1:1234`
against zeroed counters yields `abc/<pfx>-<counter+1 zero-padded>`. -/
theorem request_id_chaining_witness :
    headerGet reqC4.headers RequestIDHeader ≠ "" ∧
    (requestIDStep "myhost/q4zX" idState0 reqC4).id
      = headerGet reqC4.headers RequestIDHeader ++ "/"
        ++ ("myhost/q4zX" ++ "-"
            ++ pad6 ((getShard idState0 (shardIndex reqC4.remoteAddr) + 1) % 2 ^ 64)) :=
  ⟨by decide, (request_id_chaining "myhost/q4zX" idState0 reqC4).2.1 (by decide)⟩

/-! ## Claim C1: protocol-first dispatch short-circuits the route table -/

/-- **C1.** For every request satisfying the gRPC detector, the dispatcher's
inner handler invokes the first protocol handler whose detector returns true
— with the default registration order, the gRPC handler heads the list — and
returns its result directly: the route table and static fallback are never
consulted, even when (hypothesis `hroute`, deliberately unused) the request
path exactly matches a registered HTTP route. -/
theorem grpc_shortcircuit (h : HandlerState) (r : Request) (w : World)
    (hg : HandlerM) (rest : List ProtocolHandler) (route : RouteConfig)
    (hproto : h.protocols = { detect := grpcDetect, handle := hg } :: rest)
    (hdet : grpcDetect r = true)
    (hroute : mapGet h.routes r.path = some route) :
    serveInner h r w = hg r w := by
  simp [serveInner, hproto, firstDetect, hdet]

/-- Witness for C1: an HTTP/2 `application/grpc` request whose path collides
with the registered route `/collide` is handed to the gRPC stub. -/
theorem grpc_shortcircuit_witness :
    grpcDetect reqC1 = true ∧ serveInner hC1 reqC1 w0 = grpcStub reqC1 w0 :=
  ⟨by decide,
   grpc_shortcircuit hC1 reqC1 w0 grpcStub _ _ rfl (by decide) rfl⟩

/-! ## Claim C2: middleware execution order G, A, B, H -/

/-- **C2.** With global middleware `G` (via `Handler.Use`), parent-group
middleware `A` (via `Group.Use` on `/api`), nested-group middleware `B` (via
`Group.Use` on `/api/v1`), and handler `H` on `GET /api/v1/test`, a
dispatched request to the nested route executes exactly `G, A, B, H`: each
middleware list is wrapped in reverse (last element wraps first), so the
first-registered middleware runs outermost. -/
theorem middleware_order (g a b hl : String) :
    (ServeHTTP (c2State g a b hl) reqC2 w0).events = [g, a, b, hl] := by
  rfl

/-! ## Claim C5: the error handler's trust boundary -/

/-- **C5.** `Handler.Error`: an `AppError` is answered with only the envelope
carrying the error's code and message, at the precomputed `StatusCode`; any
other error is wrapped into a fresh internal-error `AppError` holding the
original as `MainError` plus an internal log naming its concrete type, the
handler recursing exactly once on the wrapped value; and the client bytes
depend only on code/message/status, so details, internal logs, wrapped cause
and stacks never reach the client. -/
theorem handler_error_spec (e : AppError) (p : PlainErr) (w : World)
    (hfresh : w.resp.committed = false) :
    (HandlerError (.app e) w).resp.body
      = w.resp.body ++ encodeResponse false e.message none (some (e.code, e.message)) ∧
    (HandlerError (.app e) w).resp.status = e.statusCode ∧
    HandlerError (.plain p) w = HandlerError (.app (wrapUnexpected p)) w ∧
    (wrapUnexpected p).mainError = some p ∧
    (wrapUnexpected p).code = ErrCodeInternal ∧
    (wrapUnexpected p).statusCode = 500 ∧
    (wrapUnexpected p).internalLogs = ["Unexpected error type: " ++ p.typeName] ∧
    (∀ e2 : AppError, e2.code = e.code → e2.message = e.message →
        e2.statusCode = e.statusCode → HandlerError (.app e2) w = HandlerError (.app e) w) := by
  refine ⟨?_, ?_, ?_, rfl, rfl, rfl, rfl, ?_⟩
  · simp [HandlerError, appErrorRespond, World.setHeader, World.writeHeader, World.write,
      RW.writeHeader, RW.write, hfresh]
  · simp [HandlerError, appErrorRespond, World.setHeader, World.writeHeader, World.write,
      RW.writeHeader, RW.write, hfresh]
  · simp [HandlerError, wrapUnexpected]
  · intro e2 h1 h2 h3
    simp [HandlerError, appErrorRespond, h1, h2, h3]

/-- Witness for C5: a concrete not-found error against a fresh writer is
answered at its precomputed status 404. -/
theorem handler_error_spec_witness :
    (HandlerError (.app (NewError ErrCodeNotFound "missing")) w0).resp.status
      = (NewError ErrCodeNotFound "missing").statusCode :=
  (handler_error_spec (NewError ErrCodeNotFound "missing")
    { typeName := "*errors.errorString", message := "boom" } w0 rfl).2.1

/-! ## Claim C10: the default pre-request function sets `X-PreReq` -/

theorem registerRoutes_config (regs : List (String × HandlerM × List String)) :
    ∀ h : HandlerState,
      (registerRoutes h regs).prePhase = h.prePhase ∧
      (registerRoutes h regs).postPhase = h.postPhase ∧
      (registerRoutes h regs).protocols = h.protocols := by
  induction regs with
  | nil => intro h; exact ⟨rfl, rfl, rfl⟩
  | cons x rest ih => intro h; simpa [registerRoutes, HRoute] using ih (HRoute h x.1 x.2.1 x.2.2)

/-- **C10.** `NewHandler` installs a default pre-request function, so on a
default-configured handler — whatever user routes were registered afterwards
— every request dispatched to a registered route (user routes and the
built-ins alike) reaches the route handler with `X-PreReq: valid` already
set on the response headers. -/
theorem default_prereq_header (k : String) (hg hw : HandlerM)
    (regs : List (String × HandlerM × List String)) (r : Request) (w : World)
    (route : RouteConfig)
    (hdet : firstDetect (registerRoutes (newHandler k [] [] hg hw) regs).protocols r = none)
    (hroute : mapGet (registerRoutes (newHandler k [] [] hg hw) regs).routes r.path
        = some route)
    (hallowed : isMethodAllowed r.method route.methods = true) :
    (registerRoutes (newHandler k [] [] hg hw) regs).prePhase = [preReqFn] ∧
    serveInner (registerRoutes (newHandler k [] [] hg hw) regs) r w
      = route.handler r (w.setHeader "X-PreReq" "valid") ∧
    headerGet (w.setHeader "X-PreReq" "valid").resp.headers "X-PreReq" = "valid" := by
  have hpre : (registerRoutes (newHandler k [] [] hg hw) regs).prePhase = [preReqFn] :=
    (registerRoutes_config regs (newHandler k [] [] hg hw)).1
  have hpost : (registerRoutes (newHandler k [] [] hg hw) regs).postPhase = [] :=
    (registerRoutes_config regs (newHandler k [] [] hg hw)).2.1
  refine ⟨hpre, ?_, by simp [World.setHeader, headerGet, mapGet_mapSet_self]⟩
  simp [serveInner, hdet, hroute, hallowed, hpre, hpost, execWrapped, runPre, runPost,
    preReqFn]

/-- Witness for C10: a plain `GET /_/health` on an untouched default handler
reaches the health handler with the `X-PreReq` header already set. -/
theorem default_prereq_header_witness :
    serveInner (registerRoutes (newHandler "" [] [] grpcStub wsStub) []) reqHealth w0
      = healthHandler reqHealth (w0.setHeader "X-PreReq" "valid") :=
  (default_prereq_header "" grpcStub wsStub [] reqHealth w0
    { methods := [MethodGet], handler := healthHandler } rfl rfl rfl).2.1

/-! ## Claim C6: 405 handling -/

/-- **C6.** When the path matches a registered route but the method is not in
the route's allowed list, the dispatcher answers through
`handleMethodNotAllowed` — the route's handler never executes (the response
is a function of the allowed-methods list alone) — with status 405, an
`Allow` header listing the allowed methods comma-joined, and a body that
contains "Method not allowed" and enumerates every allowed method. -/
theorem method_not_allowed_spec (h : HandlerState) (r : Request) (w : World)
    (route : RouteConfig)
    (hproto : firstDetect h.protocols r = none)
    (hroute : mapGet h.routes r.path = some route)
    (hmethod : isMethodAllowed r.method route.methods = false)
    (hfresh : w.resp.committed = false) :
    serveInner h r w = handleMethodNotAllowed route.methods r w ∧
    (serveInner h r w).resp.status = 405 ∧
    headerGet (serveInner h r w).resp.headers "Allow" = joinSep ", " route.methods ∧
    strContains (serveInner h r w).resp.body "Method not allowed" = true ∧
    ∀ m ∈ route.methods, strContains (serveInner h r w).resp.body m = true := by
  have hserve : serveInner h r w = handleMethodNotAllowed route.methods r w := by
    simp [serveInner, hproto, hroute, hmethod]
  have hbody : (handleMethodNotAllowed route.methods r w).resp.body
      = w.resp.body
        ++ encodeResponse false "Method not allowed"
            (some (.obj [("allowed_methods", .arr (route.methods.map JVal.str)),
                         ("current_method", .str r.method)])) none := by
    simp [handleMethodNotAllowed, RespondJSON, World.setHeader, World.writeHeader,
      World.write, RW.writeHeader, RW.write, hfresh]
  refine ⟨hserve, ?_, ?_, ?_, ?_⟩
  · rw [hserve]
    simp [handleMethodNotAllowed, RespondJSON, World.setHeader, World.writeHeader,
      World.write, RW.writeHeader, RW.write, hfresh]
  · rw [hserve]
    have h1 : mapGet (mapSet (mapSet w.resp.headers "Allow" (joinSep ", " route.methods))
          "Content-Type" "application/json") "Allow" = some (joinSep ", " route.methods) := by
      rw [mapGet_mapSet_ne _ _ _ _ (by decide), mapGet_mapSet_self]
    simp [handleMethodNotAllowed, RespondJSON, World.setHeader, World.writeHeader,
      World.write, RW.writeHeader, RW.write, headerGet, hfresh, h1]
  · rw [hserve, hbody]
    simp only [strContains, strData_append]
    apply containsL_append_right
    simp only [encodeResponse, strData_append, List.cons_append, List.nil_append,
      List.append_nil]
    apply containsL_append_left
    apply containsL_encodeJObj
    refine containsL_encodeJFields_tail _ (by simp) ?_
    exact containsL_encodeJFields_headval _ _ _ (containsL_encodeJStr "Method not allowed")
  · intro m hm
    rw [hserve, hbody]
    simp only [strContains, strData_append]
    apply containsL_append_right
    simp only [encodeResponse, strData_append, List.cons_append, List.nil_append,
      List.append_nil]
    apply containsL_append_left
    apply containsL_encodeJObj
    refine containsL_encodeJFields_tail _ (by simp) ?_
    refine containsL_encodeJFields_tail _ (by simp) ?_
    refine containsL_encodeJFields_headval _ _ _ ?_
    refine containsL_encodeJObj ?_
    refine containsL_encodeJFields_headval _ _ _ ?_
    exact containsL_encodeJArr (containsL_encodeJList_mem hm)

/-- Witness for C6: `POST` to the `GET`-only `/test` route yields 405 with
`Allow: GET`. -/
theorem method_not_allowed_witness :
    isMethodAllowed reqC6.method [MethodGet] = false ∧
    (serveInner hC6 reqC6 w0).resp.status = 405 ∧
    headerGet (serveInner hC6 reqC6 w0).resp.headers "Allow" = joinSep ", " [MethodGet] :=
  ⟨by decide,
   (method_not_allowed_spec hC6 reqC6 w0 { methods := [MethodGet], handler := okHandler }
      rfl rfl (by decide) rfl).2.1,
   (method_not_allowed_spec hC6 reqC6 w0 { methods := [MethodGet], handler := okHandler }
      rfl rfl (by decide) rfl).2.2.1⟩

/-! ## Claim C7: the debug-toggle endpoint -/

/-- **C7 (counterexample).** The claim says a correctly-authenticated request
"flips the debug-capture state". With debug already enabled and a request
whose body is `\x7b"enable":true\x7d`, the flag stays `true`: the handler
stores the decoded body value rather than negating the current state. -/
theorem debug_toggle_counterexample :
    ¬ ((serveInner hC7 reqC7 wDebugOn).debugEnabled = !wDebugOn.debugEnabled) := by
  decide

/-- **C7 (amended).** For a `POST /_/debug/toggle` on a default-configured
handler: with no configured key, or with a header that does not match the
configured key (including an absent header), the response is 401 and the
debug flag is unchanged; with the correct key and a body decoding to
`\x7benable: b\x7d`, the debug-capture state is *set to* `b` (not flipped)
and the 200 envelope reports `debug_enabled: b`. -/
theorem debug_toggle_spec (k : String) (hg hw : HandlerM) (r : Request) (w : World)
    (bb : Bool)
    (hdet : firstDetect (newHandler k [] [] hg hw).protocols r = none)
    (hpath : r.path = "/_/debug/toggle")
    (hmethod : r.method = "POST")
    (hfresh : w.resp.committed = false) :
    (k = "" →
      (serveInner (newHandler k [] [] hg hw) r w).debugEnabled = w.debugEnabled ∧
      (serveInner (newHandler k [] [] hg hw) r w).resp.status = 401) ∧
    (k ≠ "" → headerGet r.headers "X-Debug-Key" ≠ k →
      (serveInner (newHandler k [] [] hg hw) r w).debugEnabled = w.debugEnabled ∧
      (serveInner (newHandler k [] [] hg hw) r w).resp.status = 401) ∧
    (headerGet r.headers "X-Debug-Key" = k → k ≠ "" → r.bodyEnable = some bb →
      (serveInner (newHandler k [] [] hg hw) r w).debugEnabled = bb ∧
      (serveInner (newHandler k [] [] hg hw) r w).resp.status = 200 ∧
      (serveInner (newHandler k [] [] hg hw) r w).resp.body
        = w.resp.body
          ++ encodeResponse true "Debug mode updated"
              (some (.obj [("debug_enabled", .bool bb)])) none) := by
  have hroute : mapGet (newHandler k [] [] hg hw).routes r.path
      = some { methods := [MethodPost], handler := authenticateDebug k handleDebugToggle } := by
    rw [hpath]; rfl
  have hpre : (newHandler k [] [] hg hw).prePhase = [preReqFn] := rfl
  have hpost : (newHandler k [] [] hg hw).postPhase = [] := rfl
  have hall : isMethodAllowed r.method [MethodPost] = true := by rw [hmethod]; rfl
  have hserve : serveInner (newHandler k [] [] hg hw) r w
      = authenticateDebug k handleDebugToggle r (w.setHeader "X-PreReq" "valid") := by
    simp [serveInner, hdet, hroute, hall, hpre, hpost,
      execWrapped, runPre, runPost, preReqFn]
  have hstat401 : ∀ msg : String,
      (HandlerError (.app (NewError ErrCodeUnauthorized msg))
          (w.setHeader "X-PreReq" "valid")).debugEnabled = w.debugEnabled ∧
      (HandlerError (.app (NewError ErrCodeUnauthorized msg))
          (w.setHeader "X-PreReq" "valid")).resp.status = 401 := by
    intro msg
    constructor <;>
      simp [HandlerError, appErrorRespond, NewError, getHTTPStatusForErrorCode,
        ErrCodeUnauthorized, ErrCodeValidation, ErrCodeBadRequest,
        World.setHeader, World.writeHeader, World.write, RW.writeHeader, RW.write, hfresh]
  refine ⟨?_, ?_, ?_⟩
  · intro hk
    subst hk
    rw [hserve]
    simpa [authenticateDebug] using hstat401 "Debug authentication not configured"
  · intro hk hne
    have hk' : (k == "") = false := by simpa using hk
    rw [hserve]
    by_cases hh : headerGet r.headers "X-Debug-Key" = ""
    · simpa [authenticateDebug, hk', hh] using hstat401 "Debug key required"
    · have hh' : (headerGet r.headers "X-Debug-Key" == "") = false := by simpa using hh
      have hne' : (headerGet r.headers "X-Debug-Key" != k) = true := by simpa using hne
      simpa [authenticateDebug, hk', hh', hne'] using hstat401 "Invalid debug key"
  · intro hh hk hbody
    have hk' : (k == "") = false := by simpa using hk
    have hh0 : (headerGet r.headers "X-Debug-Key" == "") = false := by
      rw [hh]; simpa using hk
    have hhk : (headerGet r.headers "X-Debug-Key" != k) = false := by simp [hh]
    rw [hserve]
    simp only [authenticateDebug, hk', hh0, hhk, Bool.false_eq_true, if_false,
      handleDebugToggle, hbody]
    refine ⟨rfl, ?_, ?_⟩ <;>
      simp [RespondJSON, World.setHeader, World.writeHeader, World.write,
        RW.writeHeader, RW.write, hfresh]

/-- Witness for C7 (amended): the correct key with body
`\x7b"enable":true\x7d` against a world with debug off sets the flag to
`true` and answers 200. -/
theorem debug_toggle_spec_witness :
    headerGet reqC7.headers "X-Debug-Key" = "secret" ∧
    (serveInner (newHandler "secret" [] [] grpcStub wsStub) reqC7 w0).debugEnabled = true ∧
    (serveInner (newHandler "secret" [] [] grpcStub wsStub) reqC7 w0).resp.status = 200 :=
  ⟨by decide,
   ((debug_toggle_spec "secret" grpcStub wsStub reqC7 w0 true rfl rfl rfl rfl).2.2
      (by decide) (by decide) rfl).1,
   ((debug_toggle_spec "secret" grpcStub wsStub reqC7 w0 true rfl rfl rfl rfl).2.2
      (by decide) (by decide) rfl).2.1⟩

end Ags
